import Mathlib

/-!
Verification of the BULWARK time-restrictions engine.

The definitions below are a shallow embedding of the class TimeRestrictions
from src/time-restrictions.js.  src/background.js contains a line-identical
copy of the same class (its loadSettings, resetDailyCountersIfNeeded,
updateTimeUsage, applyTimeUpdates, checkLimits, showWarning, addSiteLimit,
normalizeDomain, removeSiteLimit, toggleSiteLimit and updateGlobalLimit bodies
agree token for token with the ones embedded here), so one embedding covers
both copies.

Conventions of the embedding:
- Timestamps are milliseconds since the epoch, as in Date.now, modelled as Nat.
  JS computes (now - startTime) / 1000 in floating point and then
  Math.floor(seconds / 60); for integer millisecond differences this equals
  Nat division by 60000, which is how it is modelled.
- JS number arguments that cross the message boundary (the limit argument of
  addSiteLimit and updateGlobalLimit) are modelled by JSNum: NaN or a rational
  value.  JS parseInt applied to such a number truncates toward zero.
- chrome.storage persistence is modelled by returning, next to the new state,
  a Bool that records whether saveSettings was invoked by the operation.
- chrome.notifications.create and chrome.tabs.update calls performed by
  showWarning are modelled by the Dispatch record: the notification that is
  always created, plus the list of (tabId, url) redirections issued.
- The async error paths that only log to the console (storage failures,
  vanished tabs) are outside the sequential embedding; a vanished tab is
  modelled by its absence from the open-tab list passed to a pass.
-/

namespace Bulwark

/-- A JS number as received over the message protocol: NaN or a finite value. -/
inductive JSNum where
  | nan : JSNum
  | num : ℚ → JSNum
deriving DecidableEq

/-- JS truthiness of a number: NaN and 0 are falsy, everything else truthy. -/
def JSNum.truthy : JSNum → Bool
  | .nan => false
  | .num q => q != 0

/-- JS isNaN on a number. -/
def JSNum.isNaNJS : JSNum → Bool
  | .nan => true
  | .num _ => false

/-- Truncation toward zero, the effect of JS parseInt on a finite number
written in plain decimal notation (the only shapes this module feeds it). -/
def jsTruncToInt (q : ℚ) : Int :=
  if 0 ≤ q then ⌊q⌋ else ⌈q⌉

/-- JS parseInt on a number.  The NaN case is unreachable in the embedded
code because every call site first rejects falsy input, and NaN is falsy;
it is mapped to 0 here. -/
def JSNum.parseIntJS : JSNum → Int
  | .nan => 0
  | .num q => jsTruncToInt q

/-- One tracking session, the values stored in the timeTrackers map and in
the persisted trackingSessions object. -/
structure Session where
  hostname : String
  startTime : Nat
  lastUpdate : Nat
deriving DecidableEq

/-- One entry of the siteLimits array. -/
structure SiteLimit where
  site : String
  limit : Nat
  used : Nat
  enabled : Bool
deriving DecidableEq

/-- The persisted settings record handled by loadSettings / saveSettings. -/
structure Settings where
  timeRestrictionsEnabled : Bool
  globalDailyLimit : Option Int
  globalUsed : Nat
  warningMessage : String
  siteLimits : List SiteLimit
  lastResetDate : String
deriving DecidableEq

/-- JS truthiness of the stored globalDailyLimit (null or a number). -/
def optTruthy : Option Int → Bool
  | none => false
  | some l => l != 0

/-- The defaults object of loadSettings; the default lastResetDate is the
current date string, passed in as a parameter. -/
def defaultSettings (today : String) : Settings :=
  { timeRestrictionsEnabled := false
    globalDailyLimit := none
    globalUsed := 0
    warningMessage := "Your daily browsing time is over! Take a break."
    siteLimits := []
    lastResetDate := today }

/-- The segment of a character list before its first occurrence of c: the
first element of a JS split on c (also correct when c is absent or the
list is empty, as in JS). -/
def takeUntil (c : Char) (l : List Char) : List Char :=
  l.takeWhile fun x => x != c

/-- The segment of a character list after its last occurrence of c (the
whole list when c is absent). -/
def afterLast (c : Char) (l : List Char) : List Char :=
  (l.reverse.takeWhile fun x => x != c).reverse

/-- JS String.prototype.trim on a character list (drop whitespace from
both ends). -/
def trimChars (l : List Char) : List Char :=
  ((l.dropWhile Char.isWhitespace).reverse.dropWhile Char.isWhitespace).reverse

/-- Drop a leading http:// or https:// scheme, the effect of the source
regex replace of ^https?:\/\/ with the empty string. -/
def stripSchemeChars (l : List Char) : List Char :=
  if "https://".data.isPrefixOf l then l.drop 8
  else if "http://".data.isPrefixOf l then l.drop 7
  else l

/-- Drop a leading www., the effect of the source regex replace of ^www\.
with the empty string. -/
def stripWwwChars (l : List Char) : List Char :=
  if "www.".data.isPrefixOf l then l.drop 4 else l

/-- stripWwwChars lifted to strings. -/
def stripWww (s : String) : String :=
  ⟨stripWwwChars s.data⟩

/-- normalizeDomain from the source: lowercase, trim, strip scheme, strip
www., cut at the first slash, cut at the first colon.  The source returns
null only when an exception is thrown, which cannot happen for an actual
string input; for strings the falsy failure value is the empty string
(produced e.g. by the inputs http:// or /path), and callers test the result
for falsiness, not for null specifically. -/
def normalizeDomain (domain : String) : String :=
  ⟨takeUntil ':' (takeUntil '/'
      (stripWwwChars (stripSchemeChars (trimChars (domain.data.map Char.toLower)))))⟩

/-- isTrackableUrl from the source. -/
def isTrackableUrl (url : String) : Bool :=
  url != "" &&
  !("chrome://".data.isPrefixOf url.data) &&
  !("chrome-extension://".data.isPrefixOf url.data) &&
  !("about:".data.isPrefixOf url.data) &&
  ("http://".data.isPrefixOf url.data || "https://".data.isPrefixOf url.data)

/-- Model of the host URL parser: the hostname component of new URL(url)
for the http(s) URLs that pass isTrackableUrl, which are the only ones the
module feeds it: drop the scheme, cut the authority at the first slash,
question mark or hash, drop any userinfo up to an at sign, drop the port,
lowercase. -/
def urlHostname (url : String) : String :=
  ⟨(takeUntil ':' (afterLast '@'
      (takeUntil '#' (takeUntil '?' (takeUntil '/'
        (stripSchemeChars url.data)))))).map Char.toLower⟩

/-- The full in-memory state of the module: currentSettings plus the
timeTrackers map.  The map is modelled as an association list in insertion
order, matching JS Map iteration order. -/
structure TRState where
  settings : Settings
  timeTrackers : List (Nat × Session)
deriving DecidableEq

/-- JS Map.set: replace the value in place if the key is present, else
append a new entry. -/
def mapSet (tabId : Nat) (v : Session) : List (Nat × Session) → List (Nat × Session)
  | [] => [(tabId, v)]
  | (k, w) :: rest =>
      if k = tabId then (tabId, v) :: rest else (k, w) :: mapSet tabId v rest

/-- JS Map.delete: drop the entry with the given key, if present. -/
def mapDelete (tabId : Nat) : List (Nat × Session) → List (Nat × Session)
  | [] => []
  | (k, w) :: rest =>
      if k = tabId then rest else (k, w) :: mapDelete tabId rest

/-- cleanupTab from the source (the persistSessions side effect is the
state itself in this embedding). -/
def cleanupTab (tabId : Nat) (st : TRState) : TRState :=
  { st with timeTrackers := mapDelete tabId st.timeTrackers }

/-- handleTabUpdate from the source: non-trackable URLs clean the tab up;
trackable ones replace the session for this tab with a fresh one whose
startTime and lastUpdate are now, and whose hostname is the URL hostname
with a leading www. stripped. -/
def handleTabUpdate (tabId : Nat) (url : String) (now : Nat) (st : TRState) : TRState :=
  if !(isTrackableUrl url) then cleanupTab tabId st
  else
    let sess : Session :=
      { hostname := stripWww (urlHostname url), startTime := now, lastUpdate := now }
    { st with timeTrackers := mapSet tabId sess st.timeTrackers }

/-- The session-restore step of loadSettings: every persisted (tabId,
session) pair is copied into the timeTrackers map. -/
def restoreSessions (persisted : List (Nat × Session)) (st : TRState) : TRState :=
  { st with timeTrackers :=
      persisted.foldl (fun m kv => mapSet kv.1 kv.2 m) st.timeTrackers }

/-- resetDailyCountersIfNeeded from the source; the Bool reports whether
saveSettings was invoked (it is invoked exactly when the stored
lastResetDate differs from today). -/
def resetDailyCountersIfNeeded (today : String) (s : Settings) : Settings × Bool :=
  if s.lastResetDate ≠ today then
    ({ s with
        globalUsed := 0
        siteLimits := s.siteLimits.map fun x => { x with used := 0 }
        lastResetDate := today }, true)
  else (s, false)

/-- loadSettings from the source, given the stored settings record, the
persisted trackingSessions snapshot and the current date string: adopt the
stored settings, restore the sessions, then run the daily rollover. -/
def loadSettings (stored : Settings) (persisted : List (Nat × Session))
    (today : String) : TRState :=
  let st := restoreSessions persisted { settings := stored, timeTrackers := [] }
  { st with settings := (resetDailyCountersIfNeeded today st.settings).1 }

/-- startTimeTracking from the source: run handleTabUpdate for every
currently open tab whose URL is trackable.  tabs lists the open tabs as
(tabId, url) pairs in query order. -/
def startTimeTracking (now : Nat) (tabs : List (Nat × String)) (st : TRState) : TRState :=
  tabs.foldl
    (fun acc t => if isTrackableUrl t.2 then handleTabUpdate t.1 t.2 now acc else acc) st

/-- The startup sequence of init relevant to session state: loadSettings
followed by startTimeTracking (setupEventListeners only registers
callbacks and startUpdateInterval only arms the timer). -/
def startupRestore (stored : Settings) (persisted : List (Nat × Session))
    (today : String) (now : Nat) (tabs : List (Nat × String)) : TRState :=
  startTimeTracking now tabs (loadSettings stored persisted today)

/-- Add minutes to one hostname of the per-pass site aggregation object
(absent keys read as 0, matching the undefined-is-falsy initialization in
the source). -/
def bumpSite (f : String → Nat) (h : String) (m : Nat) : String → Nat :=
  fun x => if x = h then f x + m else f x

/-- The per-session loop body of updateTimeUsage, applied to the whole
tracker list: a session whose tab is gone or no longer trackable is
removed; a live one contributes floor((now - startTime) / 60000) minutes.
A session with a zero contribution is left untouched; otherwise its
minutes are added to the global and per-hostname totals of the pass and
its startTime is set to now - ((now - startTime) mod 60000), its
lastUpdate to now.  Returns (new trackers, global total, per-site totals). -/
def processTrackers (now : Nat) (tabs : List (Nat × String)) :
    List (Nat × Session) → List (Nat × Session) × Nat × (String → Nat)
  | [] => ([], 0, fun _ => 0)
  | (tabId, tr) :: rest =>
      match tabs.lookup tabId with
      | none => processTrackers now tabs rest
      | some url =>
          if isTrackableUrl url then
            let m := (now - tr.startTime) / 60000
            let r := processTrackers now tabs rest
            if m = 0 then ((tabId, tr) :: r.1, r.2.1, r.2.2)
            else
              ((tabId,
                { tr with startTime := now - (now - tr.startTime) % 60000, lastUpdate := now })
                 :: r.1,
               r.2.1 + m,
               bumpSite r.2.2 tr.hostname m)
          else processTrackers now tabs rest

/-- applyTimeUpdates from the source: if the global daily limit is truthy,
add the pass total to globalUsed; for each site-limit entry whose site has
a truthy per-pass total and which is enabled, clamp used to
min(used + minutes, limit).  The Bool is needsSave: whether any value
actually changed (and hence whether saveSettings and checkLimits run). -/
def applyTimeUpdates (globalTime : Nat) (siteTimes : String → Nat) (s : Settings) :
    Settings × Bool :=
  let gSave := optTruthy s.globalDailyLimit
  let newLimits := s.siteLimits.map fun site =>
    if siteTimes site.site != 0 && site.enabled then
      { site with used := min (site.used + siteTimes site.site) site.limit }
    else site
  let sSave := s.siteLimits.any fun site =>
    siteTimes site.site != 0 && site.enabled &&
      (min (site.used + siteTimes site.site) site.limit != site.used)
  ({ s with
      globalUsed := if gSave then s.globalUsed + globalTime else s.globalUsed
      siteLimits := newLimits },
   gSave || sSave)

/-- The global-limit test of checkLimits: the stored limit is truthy and
globalUsed has reached it. -/
def globalBreached (s : Settings) : Bool :=
  match s.globalDailyLimit with
  | none => false
  | some l => l != 0 && decide (l ≤ (s.globalUsed : Int))

/-- An intervention dispatched by showWarning. -/
inductive Warning where
  | global : Warning
  | site : String → Warning
deriving DecidableEq

/-- checkLimits from the source, as the list of showWarning calls it makes:
on a global breach, one global warning and an early return; otherwise one
site warning for the first enabled entry with used at or over its limit,
if any (the loop breaks after the first). -/
def checkLimits (s : Settings) : List Warning :=
  if globalBreached s then [Warning.global]
  else
    match s.siteLimits.find? (fun x => x.enabled && decide (x.limit ≤ x.used)) with
    | some x => [Warning.site x.site]
    | none => []

/-- The URL of the blocking page; chrome.runtime.getURL resolves it inside
the extension origin, which is dropped here. -/
def blockedPageUrl : String := "blocked.html?reason=time_limit"

/-- The externally visible effect of one showWarning call. -/
structure Dispatch where
  notificationTitle : String
  notificationMessage : String
  redirects : List (Nat × String)
deriving DecidableEq

/-- showWarning from the source: always create one notification (a site
warning prefixes the configured message with the site name); on a global
warning additionally redirect every open trackable tab to the blocking
page. -/
def showWarning (w : Warning) (warningMessage : String)
    (tabs : List (Nat × String)) : Dispatch :=
  { notificationTitle := "Bulwark Time Limit"
    notificationMessage :=
      match w with
      | .global => warningMessage
      | .site s => "Time limit reached for " ++ s ++ ". " ++ warningMessage
    redirects :=
      match w with
      | .global => (tabs.filter fun t => isTrackableUrl t.2).map fun t => (t.1, blockedPageUrl)
      | .site _ => [] }

/-- The outcome of one reconciliation pass. -/
structure PassResult where
  state : TRState
  globalAdded : Nat
  siteAdded : String → Nat
  saved : Bool
  warnings : List Warning

/-- updateTimeUsage from the source: return immediately if a pass is in
flight or time restrictions are disabled; otherwise process every tracked
session against the open-tab list, and if the pass accumulated any global
minutes run applyTimeUpdates, followed by checkLimits when a save
happened. -/
def updateTimeUsage (now : Nat) (tabs : List (Nat × String)) (isUpdating : Bool)
    (st : TRState) : PassResult :=
  if isUpdating || !st.settings.timeRestrictionsEnabled then
    { state := st, globalAdded := 0, siteAdded := fun _ => 0, saved := false, warnings := [] }
  else
    let r := processTrackers now tabs st.timeTrackers
    if 0 < r.2.1 then
      let a := applyTimeUpdates r.2.1 r.2.2 st.settings
      { state := { settings := a.1, timeTrackers := r.1 }
        globalAdded := r.2.1
        siteAdded := r.2.2
        saved := a.2
        warnings := if a.2 then checkLimits a.1 else [] }
    else
      { state := { settings := st.settings, timeTrackers := r.1 }
        globalAdded := r.2.1
        siteAdded := r.2.2
        saved := false
        warnings := [] }

/-- The validation and CRUD errors surfaced as success:false responses.
invalidDomain and invalidLimit carry the two validation messages of
addSiteLimit; notFound carries the message of remove/toggleSiteLimit. -/
inductive TRError where
  | invalidDomain
  | invalidLimit
  | notFound
deriving DecidableEq

deriving instance DecidableEq for Except

/-- The outcome of a limit-store CRUD operation: the new settings, whether
saveSettings ran, and the success/error response sent to the caller. -/
structure OpOutcome where
  settings : Settings
  persisted : Bool
  result : Except TRError Unit
deriving DecidableEq

/-- The findIndex-then-assign branch of addSiteLimit: replace the first
entry whose normalized site equals the key with a record carrying the
normalized site, the new limit, the old used and enabled true; none if no
entry matches. -/
def replaceFirstMatch (n : String) (newLimit : Nat) :
    List SiteLimit → Option (List SiteLimit)
  | [] => none
  | x :: xs =>
      if normalizeDomain x.site = n then
        some ({ site := n, limit := newLimit, used := x.used, enabled := true } :: xs)
      else
        match replaceFirstMatch n newLimit xs with
        | some ys => some (x :: ys)
        | none => none

/-- addSiteLimit from the source: reject a falsy normalized site, then a
falsy, NaN or non-positive limit; otherwise upsert by normalized key,
preserving used of an existing entry and initializing used to 0 for a new
one, then save. -/
def addSiteLimit (site : String) (limit : JSNum) (s : Settings) : OpOutcome :=
  let normalizedSite := normalizeDomain site
  if normalizedSite = "" then
    { settings := s, persisted := false, result := .error .invalidDomain }
  else if !limit.truthy || limit.isNaNJS || decide (limit.parseIntJS ≤ 0) then
    { settings := s, persisted := false, result := .error .invalidLimit }
  else
    let newLimit := limit.parseIntJS.toNat
    match replaceFirstMatch normalizedSite newLimit s.siteLimits with
    | some ys => { settings := { s with siteLimits := ys }, persisted := true, result := .ok () }
    | none =>
        { settings :=
            { s with siteLimits :=
                s.siteLimits ++
                  [{ site := normalizedSite, limit := newLimit, used := 0, enabled := true }] }
          persisted := true
          result := .ok () }

/-- removeSiteLimit from the source: filter out every entry matching the
normalized site (the filtered array is assigned before the length check,
so a no-match call reassigns an equal array); error without saving if the
length did not shrink, else save. -/
def removeSiteLimit (site : String) (s : Settings) : OpOutcome :=
  let normalizedSite := normalizeDomain site
  let filtered := s.siteLimits.filter fun x => normalizeDomain x.site != normalizedSite
  if filtered.length = s.siteLimits.length then
    { settings := { s with siteLimits := filtered }, persisted := false
      result := .error .notFound }
  else
    { settings := { s with siteLimits := filtered }, persisted := true, result := .ok () }

/-- The find-then-mutate effect of toggleSiteLimit on the array: only the
first matching entry has its enabled flag overwritten. -/
def setEnabledFirst (n : String) (e : Bool) : List SiteLimit → List SiteLimit
  | [] => []
  | x :: xs =>
      if normalizeDomain x.site = n then { x with enabled := e } :: xs
      else x :: setEnabledFirst n e xs

/-- toggleSiteLimit from the source: find the first entry matching the
normalized site; if present overwrite its enabled flag and save, else
error without saving. -/
def toggleSiteLimit (site : String) (enabled : Bool) (s : Settings) : OpOutcome :=
  let n := normalizeDomain site
  if s.siteLimits.any (fun x => normalizeDomain x.site == n) then
    { settings := { s with siteLimits := setEnabledFirst n enabled s.siteLimits }
      persisted := true
      result := .ok () }
  else
    { settings := s, persisted := false, result := .error .notFound }

/-- updateGlobalLimit from the source: a truthy limit is stored via
parseInt, a falsy one clears the stored limit; a truthy message with a
nonempty trim replaces the warning message; timeRestrictionsEnabled is set
to the truthiness of the limit.  Always saves and succeeds. -/
def updateGlobalLimit (limit : JSNum) (message : Option String) (s : Settings) :
    Settings × Except TRError Unit :=
  let s1 := { s with
    globalDailyLimit := if limit.truthy then some limit.parseIntJS else none }
  let s2 :=
    match message with
    | some m =>
        let t : String := ⟨trimChars m.data⟩
        if m != "" && t != "" then { s1 with warningMessage := t } else s1
    | none => s1
  ({ s2 with timeRestrictionsEnabled := limit.truthy }, .ok ())

/-- A sequence of applyTimeUpdates calls folded over the settings,
discarding the needsSave flags. -/
def applyUsageSeq (calls : List (Nat × (String → Nat))) (s : Settings) : Settings :=
  calls.foldl (fun acc c => (applyTimeUpdates c.1 c.2 acc).1) s

/-- The SiteLimit invariant of the data model: used never exceeds limit
(used is a Nat here, so 0 is a lower bound by construction). -/
def usedWithinLimit (s : Settings) : Prop :=
  ∀ x ∈ s.siteLimits, x.used ≤ x.limit

instance (s : Settings) : Decidable (usedWithinLimit s) :=
  List.decidableBAll _ s.siteLimits

/-- How one site-limit entry may evolve across applyTimeUpdates calls: the
identity fields are untouched, used does not decrease and stays clamped to
the limit. -/
def siteEvolves (a b : SiteLimit) : Prop :=
  b.site = a.site ∧ b.limit = a.limit ∧ b.enabled = a.enabled ∧
    a.used ≤ b.used ∧ b.used ≤ b.limit

/-! ## Theorems -/

/-- Claim C8: the daily rollover is idempotent.  On a calendar-day change
it zeroes globalUsed and every SiteLimit.used exactly once, updates
lastResetDate and persists; running it again on the same day returns the
state unchanged and does not persist. -/
theorem C8_rollover_idempotent (s : Settings) (today : String)
    (h : s.lastResetDate ≠ today) :
    resetDailyCountersIfNeeded today s
      = ({ s with
            globalUsed := 0
            siteLimits := s.siteLimits.map fun x => { x with used := 0 }
            lastResetDate := today }, true)
    ∧ resetDailyCountersIfNeeded today (resetDailyCountersIfNeeded today s).1
        = ((resetDailyCountersIfNeeded today s).1, false) := by
  constructor
  · simp [resetDailyCountersIfNeeded, h]
  · simp [resetDailyCountersIfNeeded, h]

theorem C8_rollover_idempotent_witness :
    resetDailyCountersIfNeeded "Tue Jan 02 2024"
        { defaultSettings "Mon Jan 01 2024" with
            globalUsed := 7, siteLimits := [⟨"a.com", 5, 3, true⟩] }
      = ({ defaultSettings "Mon Jan 01 2024" with
            globalUsed := 0
            siteLimits := [⟨"a.com", 5, 0, true⟩]
            lastResetDate := "Tue Jan 02 2024" }, true)
    ∧ resetDailyCountersIfNeeded "Tue Jan 02 2024"
        (resetDailyCountersIfNeeded "Tue Jan 02 2024"
          { defaultSettings "Mon Jan 01 2024" with
              globalUsed := 7, siteLimits := [⟨"a.com", 5, 3, true⟩] }).1
      = ((resetDailyCountersIfNeeded "Tue Jan 02 2024"
          { defaultSettings "Mon Jan 01 2024" with
              globalUsed := 7, siteLimits := [⟨"a.com", 5, 3, true⟩] }).1, false) := by
  have h := C8_rollover_idempotent
    { defaultSettings "Mon Jan 01 2024" with
        globalUsed := 7, siteLimits := [⟨"a.com", 5, 3, true⟩] }
    "Tue Jan 02 2024" (by decide)
  exact ⟨by rw [h.1]; decide, h.2⟩

/-- Claim C10: with timeRestrictionsEnabled false a reconciliation pass
returns immediately, leaving the whole state untouched, accruing no global
or per-site usage and dispatching no intervention; and updateGlobalLimit
sets the flag to the truthiness of its limit argument (and stores the
parsed limit exactly when that argument is truthy), so the flag is false
whenever no global daily limit has been set through it. -/
theorem C10_disabled_pass (now : Nat) (tabs : List (Nat × String)) (b : Bool)
    (st : TRState) (lim : JSNum) (msg : Option String) (s : Settings)
    (h : st.settings.timeRestrictionsEnabled = false) :
    updateTimeUsage now tabs b st
      = { state := st, globalAdded := 0, siteAdded := fun _ => 0
          saved := false, warnings := [] }
    ∧ (updateGlobalLimit lim msg s).1.timeRestrictionsEnabled = lim.truthy
    ∧ (updateGlobalLimit lim msg s).1.globalDailyLimit
        = (if lim.truthy then some lim.parseIntJS else none) := by
  refine ⟨by simp [updateTimeUsage, h], ?_, ?_⟩
  all_goals
    cases msg <;> simp only [updateGlobalLimit] <;>
      first
        | rfl
        | (split <;> rfl)

theorem C10_disabled_pass_witness :
    updateTimeUsage 60000 [(1, "http://a.com/")] false
        { settings := defaultSettings "d", timeTrackers := [(1, ⟨"a.com", 0, 0⟩)] }
      = { state := { settings := defaultSettings "d", timeTrackers := [(1, ⟨"a.com", 0, 0⟩)] }
          globalAdded := 0, siteAdded := fun _ => 0, saved := false, warnings := [] }
    ∧ (updateGlobalLimit (JSNum.num 30) none (defaultSettings "d")).1.timeRestrictionsEnabled
        = (JSNum.num 30).truthy
    ∧ (updateGlobalLimit (JSNum.num 30) none (defaultSettings "d")).1.globalDailyLimit
        = (if (JSNum.num 30).truthy then some (JSNum.num 30).parseIntJS else none) :=
  C10_disabled_pass 60000 [(1, "http://a.com/")] false
    { settings := defaultSettings "d", timeTrackers := [(1, ⟨"a.com", 0, 0⟩)] }
    (JSNum.num 30) none (defaultSettings "d") rfl

/-- Claim C2, counterexample: the claim says addSiteLimit must fail with a
ValidationError when normalization yields no valid domain, citing
BAD_DOMAIN as such an input; in the code normalizeDomain maps BAD_DOMAIN
to the truthy string bad_domain, so the call succeeds and the entry is
stored. -/
theorem C2_counterexample :
    normalizeDomain "BAD_DOMAIN" = "bad_domain"
    ∧ (addSiteLimit "BAD_DOMAIN" (JSNum.num 10) (defaultSettings "d")).result
        = Except.ok ()
    ∧ (addSiteLimit "BAD_DOMAIN" (JSNum.num 10) (defaultSettings "d")).settings.siteLimits
        = [{ site := "bad_domain", limit := 10, used := 0, enabled := true }] := by
  decide

/-- Claim C2 as amended: addSiteLimit rejects the call, leaving the stored
settings unchanged and unpersisted, exactly when the normalized site is
the empty string (the only falsy normalization result for a string input)
or the limit is falsy, NaN, or truncates to a non-positive integer; any
other call, including one whose site does not look like a domain (such as
BAD_DOMAIN) or whose limit is a non-integer above 1, succeeds. -/
theorem C2_validation (site : String) (q : ℚ) (s : Settings) :
    (normalizeDomain site = "" →
        addSiteLimit site (JSNum.num q) s
          = { settings := s, persisted := false, result := .error .invalidDomain })
    ∧ addSiteLimit site JSNum.nan s
        = (if normalizeDomain site = "" then
            { settings := s, persisted := false, result := .error .invalidDomain }
          else
            { settings := s, persisted := false, result := .error .invalidLimit })
    ∧ (normalizeDomain site ≠ "" → jsTruncToInt q ≤ 0 →
        addSiteLimit site (JSNum.num q) s
          = { settings := s, persisted := false, result := .error .invalidLimit })
    ∧ (normalizeDomain site ≠ "" → 0 < jsTruncToInt q →
        (addSiteLimit site (JSNum.num q) s).persisted = true
        ∧ (addSiteLimit site (JSNum.num q) s).result = .ok ()) := by
  refine ⟨fun h => by simp [addSiteLimit, h], ?_, fun h hq => ?_, fun h hq => ?_⟩
  · by_cases h : normalizeDomain site = "" <;>
      simp [addSiteLimit, h, JSNum.truthy, JSNum.isNaNJS]
  · have : decide (JSNum.parseIntJS (JSNum.num q) ≤ 0) = true := by
      simpa [JSNum.parseIntJS] using hq
    simp [addSiteLimit, h, this]
  · have hq0 : q ≠ 0 := by
      intro h0
      rw [h0] at hq
      simp [jsTruncToInt] at hq
    have hd : decide (JSNum.parseIntJS (JSNum.num q) ≤ 0) = false := by
      simp [JSNum.parseIntJS]
      omega
    have ht : (JSNum.num q).truthy = true := by simp [JSNum.truthy, hq0]
    unfold addSiteLimit
    simp only [h, if_false, ht, JSNum.isNaNJS, hd]
    simp only [Bool.not_true, Bool.false_or, Bool.or_false, if_false]
    cases replaceFirstMatch (normalizeDomain site) (JSNum.parseIntJS (JSNum.num q)).toNat
        s.siteLimits <;> simp

/-- Claim C3, counterexample: addSiteLimit upserting an existing site with
a smaller limit preserves the old used without clamping, so the invariant
used ≤ limit is broken: an entry with limit 10 and used 8, upserted with
limit 5, ends as used 8 over limit 5. -/
theorem C3_counterexample :
    (addSiteLimit "x.com" (JSNum.num 5)
        { defaultSettings "d" with siteLimits := [⟨"x.com", 10, 8, true⟩] }).settings.siteLimits
      = [{ site := "x.com", limit := 5, used := 8, enabled := true }]
    ∧ ¬ (8 ≤ 5) := by
  decide

/-- Helper: every entry of a setEnabledFirst result comes from the input
with at most the enabled flag changed, so used-within-limit is preserved. -/
theorem setEnabledFirst_used_le (n : String) (e : Bool) (l : List SiteLimit)
    (h : ∀ x ∈ l, x.used ≤ x.limit) :
    ∀ x ∈ setEnabledFirst n e l, x.used ≤ x.limit := by
  induction l with
  | nil => simp [setEnabledFirst]
  | cons a as ih =>
      intro x hx
      rw [setEnabledFirst] at hx
      by_cases ha : normalizeDomain a.site = n
      · rw [if_pos ha] at hx
        rcases List.mem_cons.1 hx with rfl | hx
        · simpa using h a (List.mem_cons_self a as)
        · exact h x (List.mem_cons_of_mem a hx)
      · rw [if_neg ha] at hx
        rcases List.mem_cons.1 hx with rfl | hx
        · exact h x (List.mem_cons_self x as)
        · exact ih (fun y hy => h y (List.mem_cons_of_mem a hy)) x hx

/-- Helper: a successful replaceFirstMatch keeps used within limit,
provided every entry it may replace has used at most the new limit. -/
theorem replaceFirstMatch_used_le (n : String) (nl : Nat) (l ys : List SiteLimit)
    (hr : replaceFirstMatch n nl l = some ys)
    (h : ∀ x ∈ l, x.used ≤ x.limit)
    (hc : ∀ x ∈ l, normalizeDomain x.site = n → x.used ≤ nl) :
    ∀ y ∈ ys, y.used ≤ y.limit := by
  induction l generalizing ys with
  | nil => simp [replaceFirstMatch] at hr
  | cons a as ih =>
      rw [replaceFirstMatch] at hr
      by_cases ha : normalizeDomain a.site = n
      · rw [if_pos ha] at hr
        cases hr
        intro y hy
        rcases List.mem_cons.1 hy with rfl | hy
        · simpa using hc a (List.mem_cons_self a as) ha
        · exact h y (List.mem_cons_of_mem a hy)
      · rw [if_neg ha] at hr
        cases hrec : replaceFirstMatch n nl as with
        | none => rw [hrec] at hr; cases hr
        | some zs =>
            rw [hrec] at hr
            cases hr
            intro y hy
            rcases List.mem_cons.1 hy with rfl | hy
            · exact h y (List.mem_cons_self y as)
            · exact ih zs hrec (fun x hx => h x (List.mem_cons_of_mem a hx))
                (fun x hx hnx => hc x (List.mem_cons_of_mem a hx) hnx) y hy

/-- Claim C3 as amended: used stays within limit (and, used being a Nat,
at or above 0) across applyTimeUpdates, toggleSiteLimit, removeSiteLimit,
the daily rollover and updateGlobalLimit; addSiteLimit preserves it for a
new site, and for an upsert of an existing site only under the extra
condition that no matching entry has used above the new truncated limit —
without that condition the invariant can break, as the counterexample
shows. -/
theorem C3_invariant (s : Settings) (g : Nat) (st : String → Nat)
    (site site2 site3 : String) (e : Bool) (today : String) (q : ℚ)
    (lim : JSNum) (msg : Option String)
    (h : usedWithinLimit s) :
    usedWithinLimit ((applyTimeUpdates g st s).1)
    ∧ usedWithinLimit ((toggleSiteLimit site e s).settings)
    ∧ usedWithinLimit ((removeSiteLimit site2 s).settings)
    ∧ usedWithinLimit ((resetDailyCountersIfNeeded today s).1)
    ∧ usedWithinLimit ((updateGlobalLimit lim msg s).1)
    ∧ ((∀ x ∈ s.siteLimits, normalizeDomain x.site = normalizeDomain site3 →
          x.used ≤ (jsTruncToInt q).toNat) →
        usedWithinLimit ((addSiteLimit site3 (JSNum.num q) s).settings)) := by
  refine ⟨?_, ?_, ?_, ?_, ?_, ?_⟩
  · intro x hx
    simp only [applyTimeUpdates, List.mem_map] at hx
    rcases hx with ⟨y, hy, rfl⟩
    by_cases hc : st y.site != 0 && y.enabled
    · simp [hc]
    · simpa [hc] using h y hy
  · unfold toggleSiteLimit
    by_cases hc : s.siteLimits.any fun x => normalizeDomain x.site == normalizeDomain site
    · simpa [hc] using setEnabledFirst_used_le (normalizeDomain site) e s.siteLimits h
    · simpa [hc] using h
  · intro x hx
    unfold removeSiteLimit at hx
    simp only [] at hx
    split at hx
    all_goals
      simp only [List.mem_filter] at hx
      exact h x hx.1
  · unfold resetDailyCountersIfNeeded
    split
    · intro x hx
      simp only [List.mem_map] at hx
      rcases hx with ⟨y, hy, rfl⟩
      simp
    · exact h
  · unfold updateGlobalLimit
    cases msg with
    | none => exact h
    | some m =>
        simp only []
        split
        · exact h
        · exact h
  · intro hc
    unfold addSiteLimit
    simp only []
    by_cases h1 : normalizeDomain site3 = ""
    · simp only [if_pos h1]; exact h
    · simp only [if_neg h1]
      by_cases h2 : (!(JSNum.num q).truthy || (JSNum.num q).isNaNJS
          || decide ((JSNum.num q).parseIntJS ≤ 0)) = true
      · simp only [h2, if_true]; exact h
      · simp only [h2, if_false]
        cases hrm : replaceFirstMatch (normalizeDomain site3)
            (JSNum.parseIntJS (JSNum.num q)).toNat s.siteLimits with
        | none =>
            simp only [hrm]
            intro x hx
            rcases List.mem_append.1 hx with hx | hx
            · exact h x hx
            · simp only [List.mem_singleton] at hx
              subst hx
              simp
        | some ys =>
            simp only [hrm]
            exact replaceFirstMatch_used_le _ _ _ _ hrm h
              (by simpa [JSNum.parseIntJS] using hc)

theorem C3_invariant_witness :
    usedWithinLimit ((applyTimeUpdates 2 (fun _ => 3)
        { defaultSettings "d" with siteLimits := [⟨"a.com", 5, 3, true⟩] }).1)
    ∧ usedWithinLimit ((toggleSiteLimit "a.com" false
        { defaultSettings "d" with siteLimits := [⟨"a.com", 5, 3, true⟩] }).settings) :=
  ⟨(C3_invariant { defaultSettings "d" with siteLimits := [⟨"a.com", 5, 3, true⟩] }
      2 (fun _ => 3) "a.com" "a.com" "a.com" false "d" 1 JSNum.nan none (by decide)).1,
   (C3_invariant { defaultSettings "d" with siteLimits := [⟨"a.com", 5, 3, true⟩] }
      2 (fun _ => 3) "a.com" "a.com" "a.com" false "d" 1 JSNum.nan none (by decide)).2.1⟩

theorem C2_validation_witness :
    addSiteLimit "x.com" (JSNum.num (-1)) (defaultSettings "d")
      = { settings := defaultSettings "d", persisted := false
          result := .error .invalidLimit }
    ∧ addSiteLimit "x.com" JSNum.nan (defaultSettings "d")
        = (if normalizeDomain "x.com" = "" then
            { settings := defaultSettings "d", persisted := false
              result := .error .invalidDomain }
          else
            { settings := defaultSettings "d", persisted := false
              result := .error .invalidLimit }) :=
  ⟨(C2_validation "x.com" (-1) (defaultSettings "d")).2.2.1 (by decide) (by decide),
   (C2_validation "x.com" (-1) (defaultSettings "d")).2.1⟩

/-- Claim C7: every intervention creates a notification with the fixed
title; a site breach composes the message by prefixing the configured
warning message with the breached site name and redirects no tab at all; a
global breach uses the configured message and redirects every currently
open trackable tab to the blocking page, whose URL carries the
reason=time_limit marker. -/
theorem C7_dispatch (name msg : String) (tabs : List (Nat × String))
    (t : Nat × String) (ht : t ∈ tabs) (htr : isTrackableUrl t.2 = true) :
    (showWarning (Warning.site name) msg tabs).notificationTitle = "Bulwark Time Limit"
    ∧ (showWarning Warning.global msg tabs).notificationTitle = "Bulwark Time Limit"
    ∧ (showWarning (Warning.site name) msg tabs).notificationMessage
        = "Time limit reached for " ++ name ++ ". " ++ msg
    ∧ (showWarning (Warning.site name) msg tabs).redirects = []
    ∧ (showWarning Warning.global msg tabs).notificationMessage = msg
    ∧ (t.1, blockedPageUrl) ∈ (showWarning Warning.global msg tabs).redirects
    ∧ (∀ r ∈ (showWarning Warning.global msg tabs).redirects, r.2 = blockedPageUrl)
    ∧ blockedPageUrl = "blocked.html?reason=time_limit" := by
  refine ⟨rfl, rfl, rfl, rfl, rfl, ?_, ?_, rfl⟩
  · simp only [showWarning, List.mem_map]
    exact ⟨t, List.mem_filter.2 ⟨ht, htr⟩, rfl⟩
  · intro r hr
    simp only [showWarning, List.mem_map] at hr
    rcases hr with ⟨u, _, rfl⟩
    rfl

theorem C7_dispatch_witness :
    (showWarning (Warning.site "shop.com") "W" [(1, "http://a.com/")]).notificationMessage
      = "Time limit reached for " ++ "shop.com" ++ ". " ++ "W"
    ∧ (showWarning (Warning.site "shop.com") "W" [(1, "http://a.com/")]).redirects = []
    ∧ ((1 : Nat), blockedPageUrl)
        ∈ (showWarning Warning.global "W" [(1, "http://a.com/")]).redirects :=
  ⟨(C7_dispatch "shop.com" "W" [(1, "http://a.com/")] (1, "http://a.com/")
      (List.mem_singleton.2 rfl) (by decide)).2.2.1,
   (C7_dispatch "shop.com" "W" [(1, "http://a.com/")] (1, "http://a.com/")
      (List.mem_singleton.2 rfl) (by decide)).2.2.2.1,
   (C7_dispatch "shop.com" "W" [(1, "http://a.com/")] (1, "http://a.com/")
      (List.mem_singleton.2 rfl) (by decide)).2.2.2.2.2.1⟩

/-- Helper: a list all of whose elements fail the matching test filters to
itself under the complementary filter. -/
theorem filter_no_match_eq_self (n : String) (l : List SiteLimit)
    (h : ∀ x ∈ l, normalizeDomain x.site ≠ n) :
    l.filter (fun x => normalizeDomain x.site != n) = l :=
  List.filter_eq_self.2 fun x hx => by simpa using h x hx

/-- Helper: decomposition of setEnabledFirst around the first matching
entry, when one exists. -/
theorem setEnabledFirst_decomp (n : String) (e : Bool) (l : List SiteLimit)
    (h : ∃ x ∈ l, normalizeDomain x.site = n) :
    ∃ l₁ x l₂, l = l₁ ++ x :: l₂
      ∧ (∀ y ∈ l₁, normalizeDomain y.site ≠ n)
      ∧ normalizeDomain x.site = n
      ∧ setEnabledFirst n e l = l₁ ++ { x with enabled := e } :: l₂ := by
  induction l with
  | nil => simp at h
  | cons a as ih =>
      by_cases ha : normalizeDomain a.site = n
      · exact ⟨[], a, as, by simp, by simp, ha, by rw [setEnabledFirst, if_pos ha]; simp⟩
      · have h2 : ∃ x ∈ as, normalizeDomain x.site = n := by
          rcases h with ⟨x, hx, hnx⟩
          rcases List.mem_cons.1 hx with rfl | hx
          · exact absurd hnx ha
          · exact ⟨x, hx, hnx⟩
        rcases ih h2 with ⟨l₁, x, l₂, hdec, hmiss, hnx, hset⟩
        exact ⟨a :: l₁, x, l₂, by rw [hdec]; simp,
          by
            intro y hy
            rcases List.mem_cons.1 hy with rfl | hy
            · exact ha
            · exact hmiss y hy,
          hnx,
          by rw [setEnabledFirst, if_neg ha, hset]; simp⟩

/-- Claim C9: removeSiteLimit and toggleSiteLimit answer NotFound without
persisting, leaving the settings untouched, when no stored entry matches
the normalized site; when a match exists, removeSiteLimit deletes the
matching entries and persists, and toggleSiteLimit overwrites the enabled
flag of the first matching entry (leaving every other entry unchanged)
and persists. -/
theorem C9_remove_toggle (site : String) (e : Bool) (s : Settings) :
    ((∀ x ∈ s.siteLimits, normalizeDomain x.site ≠ normalizeDomain site) →
        removeSiteLimit site s
          = { settings := s, persisted := false, result := .error .notFound }
        ∧ toggleSiteLimit site e s
          = { settings := s, persisted := false, result := .error .notFound })
    ∧ ((∃ x ∈ s.siteLimits, normalizeDomain x.site = normalizeDomain site) →
        (removeSiteLimit site s).persisted = true
        ∧ (removeSiteLimit site s).result = .ok ()
        ∧ (removeSiteLimit site s).settings.siteLimits
            = s.siteLimits.filter (fun y => normalizeDomain y.site != normalizeDomain site)
        ∧ (toggleSiteLimit site e s).persisted = true
        ∧ (toggleSiteLimit site e s).result = .ok ()
        ∧ ∃ l₁ x l₂, s.siteLimits = l₁ ++ x :: l₂
            ∧ (∀ y ∈ l₁, normalizeDomain y.site ≠ normalizeDomain site)
            ∧ normalizeDomain x.site = normalizeDomain site
            ∧ (toggleSiteLimit site e s).settings.siteLimits
                = l₁ ++ { x with enabled := e } :: l₂) := by
  constructor
  · intro h
    constructor
    · have hf := filter_no_match_eq_self (normalizeDomain site) s.siteLimits h
      unfold removeSiteLimit
      simp only []
      rw [hf]
      simp
    · have hany : (s.siteLimits.any fun x =>
          normalizeDomain x.site == normalizeDomain site) = false := by
        rw [List.any_eq_false]
        intro x hx
        simpa using h x hx
      unfold toggleSiteLimit
      simp only []
      rw [hany]
      simp
  · intro h
    have hlen : (s.siteLimits.filter
        (fun y => normalizeDomain y.site != normalizeDomain site)).length
        ≠ s.siteLimits.length := by
      intro hlen
      rcases h with ⟨x, hx, hnx⟩
      have hsub : List.Sublist (s.siteLimits.filter
          (fun y => normalizeDomain y.site != normalizeDomain site)) s.siteLimits :=
        List.filter_sublist s.siteLimits
      have heq := hsub.eq_of_length hlen
      have hx2 : x ∈ s.siteLimits.filter
          (fun y => normalizeDomain y.site != normalizeDomain site) := by
        rw [heq]; exact hx
      have hx3 := (List.mem_filter.1 hx2).2
      rw [hnx] at hx3
      simp at hx3
    have hany : (s.siteLimits.any fun x =>
        normalizeDomain x.site == normalizeDomain site) = true := by
      rw [List.any_eq_true]
      rcases h with ⟨x, hx, hnx⟩
      exact ⟨x, hx, by simpa using hnx⟩
    refine ⟨?_, ?_, ?_, ?_, ?_, ?_⟩
    · unfold removeSiteLimit; simp only []; rw [if_neg hlen]
    · unfold removeSiteLimit; simp only []; rw [if_neg hlen]
    · unfold removeSiteLimit; simp only []; rw [if_neg hlen]
    · unfold toggleSiteLimit; simp only []; rw [hany]; simp
    · unfold toggleSiteLimit; simp only []; rw [hany]; simp
    · rcases setEnabledFirst_decomp (normalizeDomain site) e s.siteLimits h with
        ⟨l₁, x, l₂, hdec, hmiss, hnx, hset⟩
      refine ⟨l₁, x, l₂, hdec, hmiss, hnx, ?_⟩
      unfold toggleSiteLimit
      simp only []
      rw [hany]
      simpa using hset

theorem C9_remove_toggle_witness :
    (removeSiteLimit "nosuch.com" (defaultSettings "d")
        = { settings := defaultSettings "d", persisted := false
            result := .error .notFound }
      ∧ toggleSiteLimit "nosuch.com" true (defaultSettings "d")
        = { settings := defaultSettings "d", persisted := false
            result := .error .notFound })
    ∧ ((removeSiteLimit "a.com"
          { defaultSettings "d" with siteLimits := [⟨"a.com", 5, 3, true⟩] }).persisted = true
      ∧ (toggleSiteLimit "a.com" false
          { defaultSettings "d" with siteLimits := [⟨"a.com", 5, 3, true⟩] }).persisted = true) :=
  ⟨(C9_remove_toggle "nosuch.com" true (defaultSettings "d")).1 (by decide),
   ⟨((C9_remove_toggle "a.com" false
        { defaultSettings "d" with siteLimits := [⟨"a.com", 5, 3, true⟩] }).2
      (by decide)).1,
    ((C9_remove_toggle "a.com" false
        { defaultSettings "d" with siteLimits := [⟨"a.com", 5, 3, true⟩] }).2
      (by decide)).2.2.2.1⟩⟩

/-- Helper: siteEvolves composes. -/
theorem siteEvolves_trans {a b c : SiteLimit}
    (h1 : siteEvolves a b) (h2 : siteEvolves b c) : siteEvolves a c :=
  ⟨h2.1.trans h1.1, h2.2.1.trans h1.2.1, h2.2.2.1.trans h1.2.2.1,
   h1.2.2.2.1.trans h2.2.2.2.1, h2.2.2.2.2⟩

/-- Helper: Forall₂ siteEvolves composes along a chain of states. -/
theorem forall₂_siteEvolves_trans {l1 l2 l3 : List SiteLimit}
    (h1 : List.Forall₂ siteEvolves l1 l2) (h2 : List.Forall₂ siteEvolves l2 l3) :
    List.Forall₂ siteEvolves l1 l3 := by
  induction h1 generalizing l3 with
  | nil => cases h2; exact List.Forall₂.nil
  | cons hab htail ih =>
      cases h2 with
      | cons hbc h2tail => exact List.Forall₂.cons (siteEvolves_trans hab hbc) (ih h2tail)

/-- Helper: a pointwise evolution gives Forall₂ against the mapped list. -/
theorem forall₂_siteEvolves_map (l : List SiteLimit) (f : SiteLimit → SiteLimit)
    (h : ∀ x ∈ l, siteEvolves x (f x)) :
    List.Forall₂ siteEvolves l (l.map f) := by
  induction l with
  | nil => exact List.Forall₂.nil
  | cons a as ih =>
      exact List.Forall₂.cons (h a (List.mem_cons_self a as))
        (ih fun x hx => h x (List.mem_cons_of_mem a hx))

/-- Helper: the right-hand side of a siteEvolves chain satisfies the
used-within-limit invariant. -/
theorem forall₂_siteEvolves_within {l m : List SiteLimit}
    (h : List.Forall₂ siteEvolves l m) : ∀ y ∈ m, y.used ≤ y.limit := by
  induction h with
  | nil => simp
  | cons hab _ ih =>
      intro y hy
      rcases List.mem_cons.1 hy with rfl | hy
      · exact hab.2.2.2.2
      · exact ih y hy

/-- Helper: a list satisfying the invariant evolves to itself. -/
theorem forall₂_siteEvolves_refl (l : List SiteLimit)
    (h : ∀ x ∈ l, x.used ≤ x.limit) : List.Forall₂ siteEvolves l l := by
  induction l with
  | nil => exact List.Forall₂.nil
  | cons a as ih =>
      exact List.Forall₂.cons
        ⟨rfl, rfl, rfl, le_refl _, h a (List.mem_cons_self a as)⟩
        (ih fun x hx => h x (List.mem_cons_of_mem a hx))

/-- Helper: one applyTimeUpdates step evolves every site-limit entry. -/
theorem applyTimeUpdates_evolves (g : Nat) (st : String → Nat) (s : Settings)
    (h : usedWithinLimit s) :
    List.Forall₂ siteEvolves s.siteLimits (applyTimeUpdates g st s).1.siteLimits := by
  have : (applyTimeUpdates g st s).1.siteLimits
      = s.siteLimits.map fun x =>
          if st x.site != 0 && x.enabled then
            { x with used := min (x.used + st x.site) x.limit }
          else x := rfl
  rw [this]
  apply forall₂_siteEvolves_map
  intro x hx
  by_cases hc : (st x.site != 0 && x.enabled) = true
  · rw [if_pos hc]
    exact ⟨rfl, rfl, rfl, le_min (Nat.le_add_right _ _) (h x hx), min_le_right _ _⟩
  · rw [if_neg hc]
    exact ⟨rfl, rfl, rfl, le_refl _, h x hx⟩

/-- Claim C5: applyTimeUpdates rewrites each entry to
used := min(used + minutes, limit), and only entries with a truthy
per-site total that are enabled; hence over any sequence of applyUsage
calls started from a state satisfying the invariant, every entry keeps
its identity fields, its used never decreases and never exceeds its
limit. -/
theorem C5_monotone_clamped (g : Nat) (st : String → Nat)
    (calls : List (Nat × (String → Nat))) (s : Settings)
    (h : usedWithinLimit s) :
    (applyTimeUpdates g st s).1.siteLimits
      = (s.siteLimits.map fun x =>
          if st x.site != 0 && x.enabled then
            { x with used := min (x.used + st x.site) x.limit }
          else x)
    ∧ List.Forall₂ siteEvolves s.siteLimits (applyUsageSeq calls s).siteLimits := by
  refine ⟨rfl, ?_⟩
  induction calls generalizing s with
  | nil =>
      simp only [applyUsageSeq, List.foldl_nil]
      exact forall₂_siteEvolves_refl s.siteLimits h
  | cons c cs ih =>
      have hstep := applyTimeUpdates_evolves c.1 c.2 s h
      have hinv : usedWithinLimit (applyTimeUpdates c.1 c.2 s).1 :=
        forall₂_siteEvolves_within hstep
      have hrest := ih (applyTimeUpdates c.1 c.2 s).1 hinv
      have : applyUsageSeq (c :: cs) s = applyUsageSeq cs (applyTimeUpdates c.1 c.2 s).1 := by
        simp [applyUsageSeq]
      rw [this]
      exact forall₂_siteEvolves_trans hstep hrest

theorem C5_monotone_clamped_witness :
    List.Forall₂ siteEvolves [(⟨"a.com", 5, 4, true⟩ : SiteLimit)]
      (applyUsageSeq [(3, fun x => if x = "a.com" then 3 else 0)]
        { defaultSettings "d" with siteLimits := [⟨"a.com", 5, 4, true⟩] }).siteLimits :=
  (C5_monotone_clamped 0 (fun _ => 0)
    [(3, fun x => if x = "a.com" then 3 else 0)]
    { defaultSettings "d" with siteLimits := [⟨"a.com", 5, 4, true⟩] }
    (by decide)).2

/-- Helper: checkLimits dispatches at most one warning. -/
theorem checkLimits_length (s : Settings) : (checkLimits s).length ≤ 1 := by
  unfold checkLimits
  split
  · simp
  · cases s.siteLimits.find? (fun x => x.enabled && decide (x.limit ≤ x.used)) <;> simp

/-- Helper: decomposition of a successful find? around the first hit. -/
theorem find?_first_decomp {α : Type} (p : α → Bool) (l : List α) (x : α)
    (h : l.find? p = some x) :
    ∃ l₁ l₂, l = l₁ ++ x :: l₂ ∧ (∀ y ∈ l₁, p y = false) ∧ p x = true := by
  induction l with
  | nil => simp [List.find?] at h
  | cons a as ih =>
      rw [List.find?] at h
      by_cases ha : p a = true
      · rw [ha] at h
        simp only [Option.some.injEq] at h
        subst h
        exact ⟨[], as, by simp, by simp, ha⟩
      · rw [Bool.not_eq_true] at ha
        rw [ha] at h
        rcases ih h with ⟨l₁, l₂, hdec, hmiss, hx⟩
        refine ⟨a :: l₁, l₂, by rw [hdec]; simp, ?_, hx⟩
        intro y hy
        rcases List.mem_cons.1 hy with rfl | hy
        · exact ha
        · exact hmiss y hy

/-- Claim C6: a limit evaluation dispatches at most one intervention, and
so does a full reconciliation pass; when the configured global limit is
reached the evaluation dispatches exactly the global intervention
(regardless of any per-site breach, so a simultaneous breach yields only
the global one); when the global limit is not breached, the evaluation
dispatches a site intervention for the first enabled over-limit entry in
stored order, or nothing when there is none. -/
theorem C6_single_intervention (s : Settings) (l : Int) (now : Nat)
    (tabs : List (Nat × String)) (b : Bool) (st : TRState) :
    (checkLimits s).length ≤ 1
    ∧ (updateTimeUsage now tabs b st).warnings.length ≤ 1
    ∧ (s.globalDailyLimit = some l → l ≠ 0 → l ≤ (s.globalUsed : Int) →
        checkLimits s = [Warning.global])
    ∧ (globalBreached s = false →
        (∃ x ∈ s.siteLimits, x.enabled = true ∧ x.limit ≤ x.used) →
        ∃ l₁ x l₂, s.siteLimits = l₁ ++ x :: l₂
          ∧ (∀ y ∈ l₁, ¬(y.enabled = true ∧ y.limit ≤ y.used))
          ∧ x.enabled = true ∧ x.limit ≤ x.used
          ∧ checkLimits s = [Warning.site x.site])
    ∧ (globalBreached s = false →
        (∀ x ∈ s.siteLimits, ¬(x.enabled = true ∧ x.limit ≤ x.used)) →
        checkLimits s = []) := by
  refine ⟨checkLimits_length s, ?_, ?_, ?_, ?_⟩
  · unfold updateTimeUsage
    split
    · simp
    · simp only []
      split
      · split
        · exact checkLimits_length _
        · simp
      · simp
  · intro hL hne hle
    have hb : globalBreached s = true := by
      simp [globalBreached, hL, hne, hle]
    simp [checkLimits, hb]
  · intro hb hex
    have hs : (s.siteLimits.find? fun x => x.enabled && decide (x.limit ≤ x.used)).isSome := by
      rw [List.find?_isSome]
      rcases hex with ⟨x, hx, he, hu⟩
      exact ⟨x, hx, by simp [he, hu]⟩
    rcases Option.isSome_iff_exists.1 hs with ⟨x, hfind⟩
    rcases find?_first_decomp _ _ _ hfind with ⟨l₁, l₂, hdec, hmiss, hx⟩
    simp only [Bool.and_eq_true, decide_eq_true_eq] at hx
    refine ⟨l₁, x, l₂, hdec, ?_, hx.1, hx.2, ?_⟩
    · intro y hy hcon
      have := hmiss y hy
      rw [hcon.1] at this
      simp [hcon.2] at this
    · simp [checkLimits, hb, hfind]
  · intro hb hnone
    have hs : (s.siteLimits.find? fun x => x.enabled && decide (x.limit ≤ x.used)) = none := by
      rw [List.find?_eq_none]
      intro x hx
      have := hnone x hx
      intro hcon
      simp only [Bool.and_eq_true, decide_eq_true_eq] at hcon
      exact this hcon
    simp [checkLimits, hb, hs]

theorem C6_single_intervention_witness :
    checkLimits
        { defaultSettings "d" with
            timeRestrictionsEnabled := true
            globalDailyLimit := some 30
            globalUsed := 30
            siteLimits := [⟨"a.com", 5, 5, true⟩] }
      = [Warning.global] :=
  (C6_single_intervention
      { defaultSettings "d" with
          timeRestrictionsEnabled := true
          globalDailyLimit := some 30
          globalUsed := 30
          siteLimits := [⟨"a.com", 5, 5, true⟩] }
      30 0 [] false { settings := defaultSettings "d", timeTrackers := [] }).2.2.1
    rfl (by decide) (by decide)

/-- Claim C4: in a reconciliation pass each live session contributes
elapsedMinutes = floor((now - startTime) / 60000): a session with zero
elapsed minutes is left untouched; otherwise its minutes are added to the
global and per-hostname totals of the pass and its startTime advances by
exactly elapsedMinutes * 60000 ms, keeping the sub-minute remainder.  In
particular, with a 30-minute global limit and one tab tracked on news.com
since t0, ticks at t0+90s and t0+150s each add one minute to globalUsed
(total 2, no breach) while startTime advances to t0+60s and then
t0+120s. -/
theorem C4_reconciliation (now : Nat) (tabs : List (Nat × String)) (tabId : Nat)
    (tr : Session) (rest : List (Nat × Session)) (url : String) (t0 : Nat)
    (hlook : tabs.lookup tabId = some url) (htr : isTrackableUrl url = true)
    (hst : tr.startTime ≤ now) :
    ((now - tr.startTime) / 60000 = 0 →
        processTrackers now tabs ((tabId, tr) :: rest)
          = ((tabId, tr) :: (processTrackers now tabs rest).1,
             (processTrackers now tabs rest).2.1,
             (processTrackers now tabs rest).2.2))
    ∧ (0 < (now - tr.startTime) / 60000 →
        processTrackers now tabs ((tabId, tr) :: rest)
          = ((tabId, { tr with
                startTime := tr.startTime + (now - tr.startTime) / 60000 * 60000,
                lastUpdate := now }) :: (processTrackers now tabs rest).1,
             (processTrackers now tabs rest).2.1 + (now - tr.startTime) / 60000,
             bumpSite (processTrackers now tabs rest).2.2 tr.hostname
               ((now - tr.startTime) / 60000)))
    ∧ (let st0 : TRState :=
        { settings := { defaultSettings "d" with
            timeRestrictionsEnabled := true, globalDailyLimit := some 30 }
          timeTrackers := [(9, ⟨"news.com", t0, t0⟩)] }
       let r1 := updateTimeUsage (t0 + 90000) [(9, "https://news.com/")] false st0
       let r2 := updateTimeUsage (t0 + 150000) [(9, "https://news.com/")] false r1.state
       r1.state.settings.globalUsed = 1
       ∧ r1.state.timeTrackers = [(9, ⟨"news.com", t0 + 60000, t0 + 90000⟩)]
       ∧ r1.warnings = []
       ∧ r2.state.settings.globalUsed = 2
       ∧ r2.state.timeTrackers = [(9, ⟨"news.com", t0 + 120000, t0 + 150000⟩)]
       ∧ r2.warnings = []) := by
  refine ⟨?_, ?_, ?_⟩
  · intro hm
    rw [processTrackers, hlook]
    simp only [htr, if_true, hm, if_pos rfl]
  · intro hm
    have hm0 : ¬ ((now - tr.startTime) / 60000 = 0) := by omega
    have hadv : now - (now - tr.startTime) % 60000
        = tr.startTime + (now - tr.startTime) / 60000 * 60000 := by omega
    rw [processTrackers, hlook]
    simp only [htr, if_true, hm0, if_false, hadv]
  · have htn : isTrackableUrl "https://news.com/" = true := by decide
    have e1 : t0 + 90000 - t0 = 90000 := by omega
    have e2 : t0 + 90000 - 30000 = t0 + 60000 := by omega
    have h1 : processTrackers (t0 + 90000) [(9, "https://news.com/")]
        [(9, ⟨"news.com", t0, t0⟩)]
        = ([(9, ⟨"news.com", t0 + 60000, t0 + 90000⟩)], 1,
           bumpSite (fun _ => 0) "news.com" 1) := by
      rw [processTrackers]
      simp [List.lookup, htn, e1, e2, processTrackers]
    have e3 : t0 + 150000 - (t0 + 60000) = 90000 := by omega
    have e4 : t0 + 150000 - 30000 = t0 + 120000 := by omega
    have h2 : processTrackers (t0 + 150000) [(9, "https://news.com/")]
        [(9, ⟨"news.com", t0 + 60000, t0 + 90000⟩)]
        = ([(9, ⟨"news.com", t0 + 120000, t0 + 150000⟩)], 1,
           bumpSite (fun _ => 0) "news.com" 1) := by
      rw [processTrackers]
      simp [List.lookup, htn, e3, e4, processTrackers]
    have hr1 : (updateTimeUsage (t0 + 90000) [(9, "https://news.com/")] false
        { settings := { defaultSettings "d" with
            timeRestrictionsEnabled := true, globalDailyLimit := some 30 }
          timeTrackers := [(9, ⟨"news.com", t0, t0⟩)] }).state
        = { settings := { defaultSettings "d" with
              timeRestrictionsEnabled := true, globalDailyLimit := some 30
              globalUsed := 1 }
            timeTrackers := [(9, ⟨"news.com", t0 + 60000, t0 + 90000⟩)] } := by
      simp [updateTimeUsage, h1, applyTimeUpdates, optTruthy, defaultSettings]
    have hw1 : (updateTimeUsage (t0 + 90000) [(9, "https://news.com/")] false
        { settings := { defaultSettings "d" with
            timeRestrictionsEnabled := true, globalDailyLimit := some 30 }
          timeTrackers := [(9, ⟨"news.com", t0, t0⟩)] }).warnings = [] := by
      simp [updateTimeUsage, h1, applyTimeUpdates, optTruthy, checkLimits,
        globalBreached, defaultSettings]
    have hr2 : (updateTimeUsage (t0 + 150000) [(9, "https://news.com/")] false
        { settings := { defaultSettings "d" with
            timeRestrictionsEnabled := true, globalDailyLimit := some 30
            globalUsed := 1 }
          timeTrackers := [(9, ⟨"news.com", t0 + 60000, t0 + 90000⟩)] }).state
        = { settings := { defaultSettings "d" with
              timeRestrictionsEnabled := true, globalDailyLimit := some 30
              globalUsed := 2 }
            timeTrackers := [(9, ⟨"news.com", t0 + 120000, t0 + 150000⟩)] } := by
      simp [updateTimeUsage, h2, applyTimeUpdates, optTruthy, defaultSettings]
    have hw2 : (updateTimeUsage (t0 + 150000) [(9, "https://news.com/")] false
        { settings := { defaultSettings "d" with
            timeRestrictionsEnabled := true, globalDailyLimit := some 30
            globalUsed := 1 }
          timeTrackers := [(9, ⟨"news.com", t0 + 60000, t0 + 90000⟩)] }).warnings = [] := by
      simp [updateTimeUsage, h2, applyTimeUpdates, optTruthy, checkLimits,
        globalBreached, defaultSettings]
    simp only []
    refine ⟨?_, ?_, ?_, ?_, ?_, ?_⟩
    · rw [hr1]
    · rw [hr1]
    · rw [hw1]
    · rw [hr1, hr2]
    · rw [hr1, hr2]
    · rw [hr1, hw2]

theorem C4_reconciliation_witness :
    0 < (90000 - 0) / 60000
    ∧ processTrackers 90000 [(7, "http://a.com/")] [(7, ⟨"a.com", 0, 0⟩)]
        = ((7, { hostname := "a.com", startTime := 0 + (90000 - 0) / 60000 * 60000,
                 lastUpdate := 90000 })
             :: (processTrackers 90000 [(7, "http://a.com/")] []).1,
           (processTrackers 90000 [(7, "http://a.com/")] []).2.1 + (90000 - 0) / 60000,
           bumpSite (processTrackers 90000 [(7, "http://a.com/")] []).2.2 "a.com"
             ((90000 - 0) / 60000)) :=
  ⟨by decide,
   (C4_reconciliation 90000 [(7, "http://a.com/")] 7 ⟨"a.com", 0, 0⟩ [] "http://a.com/" 0
      (by decide) (by decide) (by decide)).2.1 (by decide)⟩

/-- Helper: the daily rollover never changes the enabled flag of time
restrictions. -/
theorem resetDailyCountersIfNeeded_enabled (today : String) (s : Settings) :
    (resetDailyCountersIfNeeded today s).1.timeRestrictionsEnabled
      = s.timeRestrictionsEnabled := by
  unfold resetDailyCountersIfNeeded
  split <;> rfl

/-- Claim C1, counterexample: one persisted session for a.com with
startTime T = 0 survives loadSettings unchanged, but the startup sequence
then re-registers the still-open tab, so after restart at R = 300000 the
registry holds startTime 300000, not 0; the reconciliation tick at 390000
therefore adds 1 minute (measured from the restart time) instead of the 6
minutes that measuring from the original startTime would give. -/
theorem C1_counterexample :
    (startupRestore
        { defaultSettings "d" with
            timeRestrictionsEnabled := true, globalDailyLimit := some 30 }
        [(1, ⟨"a.com", 0, 0⟩)] "d" 300000 [(1, "http://a.com/")]).timeTrackers
      = [(1, ⟨"a.com", 300000, 300000⟩)]
    ∧ ¬ ((startupRestore
        { defaultSettings "d" with
            timeRestrictionsEnabled := true, globalDailyLimit := some 30 }
        [(1, ⟨"a.com", 0, 0⟩)] "d" 300000 [(1, "http://a.com/")]).timeTrackers
      = [(1, ⟨"a.com", 0, 0⟩)])
    ∧ (updateTimeUsage 390000 [(1, "http://a.com/")] false
        (startupRestore
          { defaultSettings "d" with
              timeRestrictionsEnabled := true, globalDailyLimit := some 30 }
          [(1, ⟨"a.com", 0, 0⟩)] "d" 300000 [(1, "http://a.com/")])).globalAdded = 1
    ∧ (390000 - 0) / 60000 = 6
    ∧ (1 : Nat) ≠ 6 := by
  decide

/-- Claim C1 as amended: the restore step of loadSettings does put the
persisted session into the registry unchanged, but startTimeTracking then
re-upserts every still-open trackable tab with a fresh session whose
startTime is the restart time, so after the startup sequence the registry
holds the restart time and the next reconciliation pass measures elapsed
time from the restart time R, not from the original pre-restart
startTime. -/
theorem C1_restart (stored : Settings) (today host url : String)
    (tabId T R now : Nat)
    (htr : isTrackableUrl url = true)
    (hen : stored.timeRestrictionsEnabled = true) :
    (loadSettings stored [(tabId, ⟨host, T, T⟩)] today).timeTrackers
      = [(tabId, ⟨host, T, T⟩)]
    ∧ (startupRestore stored [(tabId, ⟨host, T, T⟩)] today R [(tabId, url)]).timeTrackers
      = [(tabId, ⟨stripWww (urlHostname url), R, R⟩)]
    ∧ (updateTimeUsage now [(tabId, url)] false
        (startupRestore stored [(tabId, ⟨host, T, T⟩)] today R
          [(tabId, url)])).globalAdded
      = (now - R) / 60000 := by
  have hload : (loadSettings stored [(tabId, ⟨host, T, T⟩)] today).timeTrackers
      = [(tabId, ⟨host, T, T⟩)] := by
    simp [loadSettings, restoreSessions, mapSet]
  have hstartup : (startupRestore stored [(tabId, ⟨host, T, T⟩)] today R
      [(tabId, url)]).timeTrackers
      = [(tabId, ⟨stripWww (urlHostname url), R, R⟩)] := by
    unfold startupRestore startTimeTracking
    simp only [List.foldl_cons, List.foldl_nil, htr, if_true]
    unfold handleTabUpdate
    simp only [htr, Bool.not_true, if_false]
    rw [hload]
    simp [mapSet]
  have hset : (startupRestore stored [(tabId, ⟨host, T, T⟩)] today R
      [(tabId, url)]).settings.timeRestrictionsEnabled = true := by
    unfold startupRestore startTimeTracking
    simp only [List.foldl_cons, List.foldl_nil, htr, if_true]
    unfold handleTabUpdate cleanupTab loadSettings restoreSessions
    simp [htr, resetDailyCountersIfNeeded_enabled, hen]
  refine ⟨hload, hstartup, ?_⟩
  unfold updateTimeUsage
  rw [hset, hstartup]
  simp only [Bool.not_true, Bool.or_false, processTrackers, List.lookup,
    beq_self_eq_true, htr, if_true]
  by_cases hm : (now - R) / 60000 = 0
  · simp [hm]
  · have hpos : 0 < (now - R) / 60000 := Nat.pos_of_ne_zero hm
    simp [hm, hpos]

theorem C1_restart_witness :
    (loadSettings { defaultSettings "d" with timeRestrictionsEnabled := true }
        [(1, ⟨"a.com", 0, 0⟩)] "d").timeTrackers
      = [(1, ⟨"a.com", 0, 0⟩)]
    ∧ (startupRestore { defaultSettings "d" with timeRestrictionsEnabled := true }
        [(1, ⟨"a.com", 0, 0⟩)] "d" 300000 [(1, "http://a.com/")]).timeTrackers
      = [(1, ⟨stripWww (urlHostname "http://a.com/"), 300000, 300000⟩)]
    ∧ (updateTimeUsage 390000 [(1, "http://a.com/")] false
        (startupRestore { defaultSettings "d" with timeRestrictionsEnabled := true }
          [(1, ⟨"a.com", 0, 0⟩)] "d" 300000 [(1, "http://a.com/")])).globalAdded
      = (390000 - 300000) / 60000 :=
  C1_restart { defaultSettings "d" with timeRestrictionsEnabled := true }
    "d" "a.com" "http://a.com/" 1 0 300000 390000 (by decide) rfl

end Bulwark
